import Mathlib

/-!
Verification of the schema-inference / value-conversion / load pipeline of the
BigQueryNLP demo application.  Every definition below is a shallow embedding of
a function of the repository (file and line references in the doc comments);
strings are modelled as Lean `String` (a list of unicode scalar characters) and
the JavaScript number operations that the claims depend on are modelled over
`Nat`/`Int` with exactness notes where the source uses doubles.
-/

namespace BQApp

/-! ### JavaScript string primitives used by the source -/

/-- Characters removed by JavaScript `String.prototype.trim` (the ASCII
whitespace characters plus the common unicode ones that can appear in text
inputs).  Only membership/non-membership of the characters the pipeline can
produce matters for the claims. -/
def isJsSpace (c : Char) : Bool :=
  c == ' ' || c == '\t' || c == '\n' || c == '\r' ||
  c == '\x0b' || c == '\x0c' || c == ' ' || c == '﻿'

/-- JavaScript `String.prototype.trim` on the character-list view. -/
def jsTrimList (cs : List Char) : List Char :=
  ((cs.dropWhile isJsSpace).reverse.dropWhile isJsSpace).reverse

/-- JavaScript `value.trim()`. -/
def jsTrim (s : String) : String :=
  String.mk (jsTrimList s.toList)

/-- JavaScript `toLowerCase` on one character (ASCII range, which is the only
range the pipeline's regular expressions distinguish). -/
def jsToLower (c : Char) : Char :=
  if 65 ≤ c.toNat ∧ c.toNat ≤ 90 then Char.ofNat (c.toNat + 32) else c

/-- JavaScript `s.toLowerCase()`. -/
def jsStrLower (s : String) : String :=
  String.mk (s.toList.map jsToLower)

/-- Membership in the regex class `[a-zA-Z0-9_]`. -/
def isWordChar (c : Char) : Bool :=
  (97 ≤ c.toNat && c.toNat ≤ 122) || (65 ≤ c.toNat && c.toNat ≤ 90) ||
  (48 ≤ c.toNat && c.toNat ≤ 57) || c.toNat == 95

/-- Membership in the regex class `[a-zA-Z_]`. -/
def isLeadChar (c : Char) : Bool :=
  (97 ≤ c.toNat && c.toNat ≤ 122) || (65 ≤ c.toNat && c.toNat ≤ 90) ||
  c.toNat == 95

/-- Characters that may appear in a sanitizer result other than the fallback:
lowercase letters, digits and underscore. -/
def isLowerWord (c : Char) : Bool :=
  (97 ≤ c.toNat && c.toNat ≤ 122) || (48 ≤ c.toNat && c.toNat ≤ 57) ||
  c.toNat == 95

/-! ### Identifier Sanitizer
`sanitizeFieldName`, `src/routes/api/chat/+server.ts` lines 423-432 (the same
chain is inlined in `src/routes/api/data/insert/+server.ts`). -/

/-- Step `.replace(/[^a-zA-Z0-9_]/g, '_')` of the sanitizer. -/
def replaceNonWord (cs : List Char) : List Char :=
  cs.map fun c => if isWordChar c then c else '_'

/-- Step `.replace(/^[^a-zA-Z_]/, '_$&')`: if the first character is not a letter
 or underscore, prefix an underscore (anchored, single occurrence). -/
def prefixIfBadLead (cs : List Char) : List Char :=
  match cs with
  | [] => []
  | c :: _ => if isLeadChar c then cs else '_' :: cs

/-- Step `.replace(/__+/g, '_')`: every maximal run of two or more underscores is
replaced by a single underscore; implemented as pairwise collapse of adjacent
underscores, which yields the same string. -/
def collapseUnd : List Char → List Char
  | [] => []
  | [c] => [c]
  | c :: d :: rest =>
    if c == '_' && d == '_' then collapseUnd (d :: rest)
    else c :: collapseUnd (d :: rest)

/-- Step `.replace(/^_+|_+$/g, '')`: strip leading and trailing underscores. -/
def stripUnd (cs : List Char) : List Char :=
  ((cs.dropWhile (· == '_')).reverse.dropWhile (· == '_')).reverse

/-- The full sanitizer chain on the character-list view:
trim, lowercase, replace non-word characters, guard the leading character,
collapse underscore runs, strip boundary underscores. -/
def sanitizeList (cs : List Char) : List Char :=
  stripUnd (collapseUnd (prefixIfBadLead (replaceNonWord
    ((jsTrimList cs).map jsToLower))))

/-- Function `sanitizeFieldName` (chat `+server.ts` 423-432): the chain above, with the
JavaScript `|| 'unnamed_field'` fallback when the result is the empty string. -/
def sanitizeFieldName (s : String) : String :=
  let r := sanitizeList s.toList
  if r = [] then "unnamed_field" else String.mk r

example : sanitizeFieldName "  Hello World! " = "hello_world" := by decide
example : sanitizeFieldName "1abc" = "1abc" := by decide
example : sanitizeFieldName "!!!" = "unnamed_field" := by decide
example : sanitizeFieldName "" = "unnamed_field" := by decide

/-! ### Regular-expression matchers used by the classifier and converter -/

/-- The regex class `\d`. -/
def isDigitChar (c : Char) : Bool :=
  48 ≤ c.toNat && c.toNat ≤ 57

/-- Consume exactly `n` digits, returning the rest of the input. -/
def takeDigits : Nat → List Char → Option (List Char)
  | 0, cs => some cs
  | _ + 1, [] => none
  | n + 1, c :: cs => if isDigitChar c then takeDigits n cs else none

/-- Consume one expected character. -/
def expectChar (c : Char) : List Char → Option (List Char)
  | [] => none
  | d :: cs => if d == c then some cs else none

/-- Consume `\d{1,2}` greedily; with the source patterns (always followed by a
non-digit) greedy matching coincides with backtracking regex semantics. -/
def takeDigits12 : List Char → Option (List Char)
  | [] => none
  | c :: rest =>
    if isDigitChar c then
      match rest with
      | d :: r2 => if isDigitChar d then some r2 else some rest
      | [] => some []
    else none

/-- The regex `/^-?\d+$/`. -/
def matchesIntPat (s : String) : Bool :=
  match s.toList with
  | '-' :: rest => !rest.isEmpty && rest.all isDigitChar
  | cs => !cs.isEmpty && cs.all isDigitChar

/-- The regex `/^-?\d+\.\d+$/` without the optional sign. -/
def floatBody (cs : List Char) : Bool :=
  let ds := cs.takeWhile isDigitChar
  let rest := cs.dropWhile isDigitChar
  !ds.isEmpty &&
    (match rest with
     | '.' :: fs => !fs.isEmpty && fs.all isDigitChar
     | _ => false)

/-- The regex `/^-?\d+\.\d+$/`. -/
def matchesFloatPat (s : String) : Bool :=
  match s.toList with
  | '-' :: cs => floatBody cs
  | cs => floatBody cs

/-- The regex `/^\d{4}-\d{2}-\d{2}[T ]\d{2}:\d{2}:\d{2}/` — a prefix match: anything may
follow the matched 19 characters. -/
def matchesTimestampPat (s : String) : Bool :=
  (do
    let cs ← takeDigits 4 s.toList
    let cs ← expectChar '-' cs
    let cs ← takeDigits 2 cs
    let cs ← expectChar '-' cs
    let cs ← takeDigits 2 cs
    let cs ← (match cs with
      | c :: r => if c == 'T' || c == ' ' then some r else none
      | [] => none)
    let cs ← takeDigits 2 cs
    let cs ← expectChar ':' cs
    let cs ← takeDigits 2 cs
    let cs ← expectChar ':' cs
    let _ ← takeDigits 2 cs
    some ()).isSome

/-- The regex `/^\d{4}-\d{2}-\d{2}$/` (anchored at both ends). -/
def matchesDateIso (s : String) : Bool :=
  (do
    let cs ← takeDigits 4 s.toList
    let cs ← expectChar '-' cs
    let cs ← takeDigits 2 cs
    let cs ← expectChar '-' cs
    let cs ← takeDigits 2 cs
    if cs.isEmpty then some () else none).isSome

/-- The regex `/^\d{1,2}\/\d{1,2}\/\d{4}$/` (anchored at both ends). -/
def matchesDateSlash (s : String) : Bool :=
  (do
    let cs ← takeDigits12 s.toList
    let cs ← expectChar '/' cs
    let cs ← takeDigits12 cs
    let cs ← expectChar '/' cs
    let cs ← takeDigits 4 cs
    if cs.isEmpty then some () else none).isSome

/-- The date test of `inferColumnType` (chat `+server.ts` line 401). -/
def matchesDatePat (s : String) : Bool :=
  matchesDateIso s || matchesDateSlash s

/-! ### JavaScript values

Parsed JSON data and the values flowing through `convertValue` are modelled by
`JSValue`.  JSON numbers are modelled as exact integers (`vInt`); non-integer
JSON numbers are floating point and outside this model — no claim depends on
them. -/

inductive JSValue where
  | vNull
  | vBool (b : Bool)
  | vInt (n : Int)
  | vStr (s : String)
  | vArr (xs : List JSValue)
  | vObj (fields : List (String × JSValue))

mutual

/-- JavaScript `String(value)` stringification: `null`/booleans/numbers
render their literals, strings are themselves, arrays render as
`Array.prototype.join(",")` (with null elements rendered empty) and plain
objects render `"[object Object]"`. -/
def jsValueToString : JSValue → String
  | .vNull => "null"
  | .vBool true => "true"
  | .vBool false => "false"
  | .vInt n => toString n
  | .vStr s => s
  | .vArr xs => String.intercalate "," (arrItemStrings xs)
  | .vObj _ => "[object Object]"

/-- Element rendering of `Array.prototype.join`: `null` renders empty. -/
def arrItemStrings : List JSValue → List String
  | [] => []
  | .vNull :: rest => "" :: arrItemStrings rest
  | v :: rest => jsValueToString v :: arrItemStrings rest

end

/-! ### Value Type Classifier
`inferColumnType`, chat `+server.ts` lines 356-421. -/

inductive BQType where
  | STRING | INTEGER | FLOAT | BOOLEAN | TIMESTAMP | DATE
deriving DecidableEq, Repr

/-- The boolean token set of the classifier (line 377). -/
def boolSet : List String :=
  ["true", "false", "1", "0", "yes", "no", "y", "n"]

/-- The vote tally mutated by the classifier's `forEach` (lines 360-367). -/
structure TypeCounts where
  integer : Nat
  float : Nat
  boolean : Nat
  date : Nat
  timestamp : Nat
  string : Nat
deriving DecidableEq, Repr

def TypeCounts.zero : TypeCounts := ⟨0, 0, 0, 0, 0, 0⟩

/-- One iteration of the classifier's `forEach` body (lines 369-408):
skip blank/"null" values, otherwise increment exactly one counter, testing
boolean set, integer, float, timestamp, date, string in that order. -/
def tallyValue (tc : TypeCounts) (value : JSValue) : TypeCounts :=
  let strValue := jsTrim (jsValueToString value)
  if strValue = "" || jsStrLower strValue = "null" then tc
  else if boolSet.contains (jsStrLower strValue) then
    { tc with boolean := tc.boolean + 1 }
  else if matchesIntPat strValue then { tc with integer := tc.integer + 1 }
  else if matchesFloatPat strValue then { tc with float := tc.float + 1 }
  else if matchesTimestampPat strValue then
    { tc with timestamp := tc.timestamp + 1 }
  else if matchesDatePat strValue then { tc with date := tc.date + 1 }
  else { tc with string := tc.string + 1 }

/-- Function `inferColumnType` (lines 356-421).  The JavaScript threshold comparison
`count >= total * 0.7` is modelled exactly as `10 * count ≥ 7 * total`: for
every natural `total`, the double `total * 0.7` differs from the rational
`7 * total / 10` by far less than the `1/10` gap separating that rational from
the nearest integer (and when `total` is a multiple of ten the product rounds
to the exact integer), so the integer comparison is unchanged. -/
def inferColumnType (values : List JSValue) : BQType :=
  if values.isEmpty then .STRING
  else
    let tc := values.foldl tallyValue TypeCounts.zero
    let total := tc.integer + tc.float + tc.boolean + tc.date +
      tc.timestamp + tc.string
    if 10 * tc.integer ≥ 7 * total then .INTEGER
    else if 10 * tc.float ≥ 7 * total then .FLOAT
    else if 10 * tc.boolean ≥ 7 * total then .BOOLEAN
    else if 10 * tc.timestamp ≥ 7 * total then .TIMESTAMP
    else if 10 * tc.date ≥ 7 * total then .DATE
    else .STRING

/-- The per-value classification outcome, for stating claims: `none` means the
value is skipped (blank or "null"), otherwise the single counter it
increments. -/
inductive VClass where
  | integer | float | boolean | date | timestamp | vstring
deriving DecidableEq, Repr

/-- Declarative form of the `forEach` body: which counter a value increments. -/
def voteOf (value : JSValue) : Option VClass :=
  let strValue := jsTrim (jsValueToString value)
  if strValue = "" || jsStrLower strValue = "null" then none
  else if boolSet.contains (jsStrLower strValue) then some .boolean
  else if matchesIntPat strValue then some .integer
  else if matchesFloatPat strValue then some .float
  else if matchesTimestampPat strValue then some .timestamp
  else if matchesDatePat strValue then some .date
  else some .vstring

/-- The classifier as the specification describes it: count votes per class
over the non-skipped values and return the first type in the priority order
INTEGER, FLOAT, BOOLEAN, TIMESTAMP, DATE whose count reaches 70% of the vote
total, else STRING (and STRING on empty input). -/
def inferColumnTypeSpec (values : List JSValue) : BQType :=
  if values.isEmpty then .STRING
  else
    let votes := values.filterMap voteOf
    let total := votes.length
    if 10 * votes.count .integer ≥ 7 * total then .INTEGER
    else if 10 * votes.count .float ≥ 7 * total then .FLOAT
    else if 10 * votes.count .boolean ≥ 7 * total then .BOOLEAN
    else if 10 * votes.count .timestamp ≥ 7 * total then .TIMESTAMP
    else if 10 * votes.count .date ≥ 7 * total then .DATE
    else .STRING

example : inferColumnType (["1", "2", "3"].map .vStr) = .STRING := by decide
example : inferColumnType (["1.5", "2.5"].map .vStr) = .FLOAT := by decide
example : inferColumnType (["true", "false", "1"].map .vStr) = .BOOLEAN := by
  decide
example : inferColumnType (["2024-01-01", "2024-02-02"].map .vStr) = .DATE := by
  decide
example : inferColumnType (["a", "b", "1"].map .vStr) = .STRING := by decide
example : inferColumnType [] = .STRING := by decide
example : inferColumnType [.vStr "", .vStr "NULL"] = .INTEGER := by decide
example :
    inferColumnType (["2024-01-01 10:00:00", "2024-02-02 11:11:11"].map .vStr)
      = .TIMESTAMP := by decide

/-! ### Row Conversion Engine
`convertValue`, `parseCSVLine`, `parseCSV`, `parseJSON` from
`src/routes/api/data/insert/+server.ts`. -/

/-- Digit run to number (the value JavaScript `parseInt(s, 10)` produces on a
string matching `/^\d+$/`; such values are exact integers, modelled in `Nat`).
-/
def digitsToNat (cs : List Char) : Nat :=
  cs.foldl (fun acc c => 10 * acc + (c.toNat - 48)) 0

/-- JavaScript `parseInt(strValue, 10)` for a string matching `/^-?\d+$/` (the only
strings the source applies it to). -/
def jsParseInt (s : String) : Int :=
  match s.toList with
  | '-' :: rest => -(digitsToNat rest : Int)
  | cs => (digitsToNat cs : Int)

/-- The result of `convertValue`: a JavaScript `null`, boolean, number or
string.  A value produced by the `parseFloat` branch is carried as its matched
decimal literal (`cFloat`); no claim observes the numeric value of a float. -/
inductive ConvValue where
  | cNull
  | cBool (b : Bool)
  | cInt (n : Int)
  | cFloat (lit : String)
  | cStr (s : String)
deriving DecidableEq, Repr

/-- Function `convertValue` (insert `+server.ts` lines 215-252): null/blank/"null" to
null, then the boolean token sets, then the integer pattern via `parseInt`,
then the decimal pattern via `parseFloat`, else the trimmed string.  The
`isNaN` guards of the source never fire on pattern-matched input and have no
observable effect. -/
def convertValue (value : JSValue) : ConvValue :=
  match value with
  | .vNull => .cNull
  | v =>
    let strValue := jsTrim (jsValueToString v)
    if strValue = "" || jsStrLower strValue = "null" then .cNull
    else
      let lowerStr := jsStrLower strValue
      if ["true", "yes", "y", "1"].contains lowerStr then .cBool true
      else if ["false", "no", "n", "0"].contains lowerStr then .cBool false
      else if matchesIntPat strValue then .cInt (jsParseInt strValue)
      else if matchesFloatPat strValue then .cFloat strValue
      else .cStr strValue

example : convertValue (.vStr " 42 ") = .cInt 42 := by decide
example : convertValue (.vStr "-07") = .cInt (-7) := by decide
example : convertValue (.vStr "1") = .cBool true := by decide
example : convertValue (.vStr "No") = .cBool false := by decide
example : convertValue (.vStr "1.5") = .cFloat "1.5" := by decide
example : convertValue (.vStr " null ") = .cNull := by decide
example : convertValue (.vStr "abc") = .cStr "abc" := by decide
example : convertValue (.vInt 12) = .cInt 12 := by decide

instance {ε α : Type} [DecidableEq ε] [DecidableEq α] :
    DecidableEq (Except ε α) := fun a b =>
  match a, b with
  | .ok x, .ok y =>
    if h : x = y then .isTrue (by rw [h])
    else .isFalse (by intro hc; cases hc; exact h rfl)
  | .error x, .error y =>
    if h : x = y then .isTrue (by rw [h])
    else .isFalse (by intro hc; cases hc; exact h rfl)
  | .ok _, .error _ => .isFalse (by intro hc; cases hc)
  | .error _, .ok _ => .isFalse (by intro hc; cases hc)

/-- JavaScript `content.split('\n')` on the character-list view. -/
def splitNlList (cs : List Char) : List String :=
  match cs with
  | [] => [""]
  | c :: rest =>
    let r := splitNlList rest
    if c == '\n' then "" :: r
    else
      match r with
      | s :: ss => String.mk (c :: s.toList) :: ss
      | [] => [String.mk [c]]

/-- The expression `content.trim().split('\n')`, the line splitting shared by `parseCSV` and
`detectCSVSchema`. -/
def csvLines (content : String) : List String :=
  splitNlList (jsTrim content).toList

example : csvLines " a,b\n1,2\n" = ["a,b", "1,2"] := by decide
example : csvLines "a,b\n\n1,2" = ["a,b", "", "1,2"] := by decide

/-- The character scan of `parseCSVLine` (insert `+server.ts` lines 182-213,
identical copy in chat `+server.ts` lines 323-354): `current` is the field
buffer, `inQuotes` the quote flag; a double quote inside quotes escapes, a
comma outside quotes ends the (trimmed) field. -/
def parseCSVLineAux : List Char → List Char → Bool → List String
  | [], current, _ => [jsTrim (String.mk current)]
  | '"' :: '"' :: rest, current, true =>
    parseCSVLineAux rest (current ++ ['"']) true
  | '"' :: rest, current, true => parseCSVLineAux rest current false
  | '"' :: rest, current, false => parseCSVLineAux rest current true
  | ',' :: rest, current, true => parseCSVLineAux rest (current ++ [',']) true
  | ',' :: rest, current, false =>
    jsTrim (String.mk current) :: parseCSVLineAux rest [] false
  | c :: rest, current, inQuotes =>
    parseCSVLineAux rest (current ++ [c]) inQuotes

/-- Function `parseCSVLine` (lines 182-213). -/
def parseCSVLine (line : String) : List String :=
  parseCSVLineAux line.toList [] false

example : parseCSVLine "a,\"b,c\",d" = ["a", "b,c", "d"] := by decide
example : parseCSVLine "a,\"b\"\"c\",d" = ["a", "b\"c", "d"] := by decide
example : parseCSVLine "3," = ["3", ""] := by decide
example : parseCSVLine "" = [""] := by decide

/-- A converted row: a JavaScript object, modelled as its key/value pairs in
assignment order. -/
abbrev Row := List (String × ConvValue)

/-- The row-object construction of `parseCSV` (lines 116-135): for each header
position, sanitize the header into the field name and convert the token,
storing `null` for absent or blank tokens. -/
def mkCSVRow (headers values : List String) : Row :=
  headers.enum.map fun (idx, header) =>
    let fieldName := sanitizeFieldName header
    match values.get? idx with
    | none => (fieldName, ConvValue.cNull)
    | some v =>
      if jsTrim v = "" then (fieldName, ConvValue.cNull)
      else (fieldName, convertValue (.vStr v))

/-- The data-line loop of `parseCSV` (lines 109-138): a line whose token count
differs from the header's is skipped (logged and dropped), all other lines
yield one row each. -/
def csvRowsLoop (headers : List String) : List String → List Row
  | [] => []
  | line :: ls =>
    let values := parseCSVLine line
    if values.length ≠ headers.length then csvRowsLoop headers ls
    else mkCSVRow headers values :: csvRowsLoop headers ls

/-- Function `parseCSV` (lines 100-141): split the trimmed content into lines, fail
when fewer than a header plus one data line remain, else tokenize the header
and run the data-line loop. -/
def parseCSV (content : String) : Except String (List Row) :=
  match csvLines content with
  | l0 :: rest@(_ :: _) => .ok (csvRowsLoop (parseCSVLine l0) rest)
  | _ => .error "CSV must have at least a header and one data row"

example :
    parseCSV "a,b\n1,2\n1,2,3\nx,z" =
      .ok [[("a", .cBool true), ("b", .cInt 2)],
           [("a", .cStr "x"), ("b", .cStr "z")]] := by decide

/-- The check `typeof record === 'object' && record !== null`: the JavaScript check
passed by objects and by arrays (arrays are `typeof 'object'`), failed by
`null` and by every primitive. -/
def recordEntries : JSValue → Option (List (String × JSValue))
  | .vObj fs => some fs
  | .vArr xs => some (xs.enum.map fun (i, x) => (toString i, x))
  | _ => none

/-- A JSON object in the JSON sense (`{...}` only, not an array). -/
def isJsonObject : JSValue → Bool
  | .vObj _ => true
  | _ => false

/-- The record cleanup of `parseJSON` (lines 162-175): sanitize every key and
convert every value. -/
def cleanRecord (entries : List (String × JSValue)) : Row :=
  entries.map fun (k, v) => (sanitizeFieldName k, convertValue v)

/-- The `records.map` of `parseJSON` (lines 157-176): records are processed in
order and the first non-object record throws, aborting the whole map. -/
def mapRecords : List JSValue → Except String (List Row)
  | [] => .ok []
  | r :: rs =>
    match recordEntries r with
    | none => .error "Each record must be an object"
    | some entries => do
      let rest ← mapRecords rs
      .ok (cleanRecord entries :: rest)

/-- Function `parseJSON` (lines 143-180), modelled from the successfully parsed JSON
document onward (`JSON.parse` itself is the language runtime): a top-level
array yields its elements as records, a top-level object yields itself, any
other top level throws; every thrown message is wrapped by the surrounding
catch into `Invalid JSON format: ...`. -/
def parseJSON (data : JSValue) : Except String (List Row) :=
  let body : Except String (List Row) :=
    match data with
    | .vArr xs => mapRecords xs
    | .vObj fs => mapRecords [JSValue.vObj fs]
    | _ => .error "JSON must be an object or array of objects"
  match body with
  | .ok rows => .ok rows
  | .error msg => .error ("Invalid JSON format: " ++ msg)

example :
    parseJSON (.vArr [.vObj [("a", .vInt 1)], .vStr "x"]) =
      .error "Invalid JSON format: Each record must be an object" := by decide
example : parseJSON (.vArr [.vArr []]) = .ok [[]] := by decide
example :
    parseJSON (.vArr [.vArr [.vInt 7]]) = .ok [[("0", .cInt 7)]] := by decide
example : parseJSON (.vObj [("A b", .vStr "x")]) =
    .ok [[("a_b", .cStr "x")]] := by decide
example : parseJSON (.vInt 3) =
    .error "Invalid JSON format: JSON must be an object or array of objects" :=
  by decide

/-! ### Schema Inference Engine
`detectCSVSchema`, chat `+server.ts` lines 257-277. -/

inductive BQMode where
  | REQUIRED | NULLABLE | REPEATED
deriving DecidableEq, Repr

/-- The `SchemaField` interface (chat `+server.ts` lines 222-227); the
optional description is never produced by inference and is omitted. -/
structure SchemaField where
  name : String
  type : BQType
  mode : BQMode
deriving DecidableEq, Repr

/-- The per-header field construction of `detectCSVSchema` (lines 267-276):
gather the column of sampled tokens at the header's position, drop absent and
empty ones, classify, and set REQUIRED exactly when nothing was dropped. -/
def csvFieldAt (sampleRows : List (List String)) (idx : Nat)
    (header : String) : SchemaField :=
  let columnValues :=
    ((sampleRows.map fun row => row.get? idx).filterMap id).filter (· ≠ "")
  { name := sanitizeFieldName header
    type := inferColumnType (columnValues.map .vStr)
    mode := if columnValues.length = sampleRows.length then .REQUIRED
      else .NULLABLE }

/-- Function `detectCSVSchema` (lines 257-277): split the trimmed content into lines,
fail below a header plus one data line, tokenize the header and the first ten
data lines (`lines.slice(1, min(11, lines.length))`), and emit one field per
header position. -/
def detectCSVSchema (content : String) : Except String (List SchemaField) :=
  match csvLines content with
  | l0 :: rest@(_ :: _) =>
    let headers := parseCSVLine l0
    let sampleRows := (rest.take 10).map parseCSVLine
    .ok (headers.enum.map fun (idx, header) => csvFieldAt sampleRows idx header)
  | _ => .error "CSV must have at least a header and one data row"

example :
    detectCSVSchema "id,name\n1,Alice\n2,Bob\n3," =
      .ok [⟨"id", .STRING, .REQUIRED⟩, ⟨"name", .STRING, .NULLABLE⟩] := by
  decide

/-! ### Load Orchestrator
The insert `POST` handler, `src/routes/api/data/insert/+server.ts` lines
11-98, modelled from the point where `content` has been parsed into `rows`.
The external warehouse is modelled by its observable behaviour: whether the
table exists, whether the delete-all job succeeds, and which batch insert
calls succeed. -/

/-- The warehouse table state: existence and current contents. -/
structure WhState where
  tableExists : Bool
  contents : List Row
deriving DecidableEq, Repr

/-- Outcomes of the external calls issued during one load: the delete-all
query of replace mode and the per-batch `table.insert` calls (indexed by batch
ordinal). -/
structure WhBehavior where
  deleteSucceeds : Bool
  insertSucceeds : Nat → Bool

/-- The delete-all query of replace mode (lines 47-52): on success the table
is emptied, on failure the state is untouched and an error is raised. -/
def runDelete (beh : WhBehavior) (st : WhState) : Except String WhState :=
  if beh.deleteSucceeds then .ok { st with contents := [] }
  else .error "delete failed"

/-- The slicing `rows.slice(i, i + batchSize)` iterated: the partition of the rows into
consecutive batches of `n + 1` elements (the last one possibly shorter). -/
def chunkPos (n : Nat) : List Row → List (List Row)
  | [] => []
  | x :: xs => (x :: xs.take n) :: chunkPos n (xs.drop n)
termination_by l => l.length
decreasing_by
  simp only [List.length_cons, List.length_drop]
  omega

/-- The constant `batchSize = 1000` (line 61). -/
def batchSize : Nat := 1000

/-- The batches of one load: consecutive slices of 1000 rows. -/
def chunkRows (rows : List Row) : List (List Row) :=
  chunkPos (batchSize - 1) rows

/-- The insert loop (lines 64-80): each batch is submitted in order; a
successful call appends the batch to the table and adds its size to
`totalInserted`; a failed call is logged and the loop continues.  Returns the
final `totalInserted` and the final table contents. -/
def runBatches (ins : Nat → Bool) (i : Nat) (contents : List Row) :
    List (List Row) → Nat × List Row
  | [] => (0, contents)
  | b :: bs =>
    if ins i then
      let r := runBatches ins (i + 1) (contents ++ b) bs
      (b.length + r.1, r.2)
    else runBatches ins (i + 1) contents bs

/-- The responses the handler can produce on the paths modelled here. -/
inductive InsertResponse where
  | badRequest (msg : String)
  | notFound (msg : String)
  | ok (rowsInserted totalRows : Nat) (tableId mode : String)
deriving DecidableEq, Repr

/-- The insert `POST` handler (lines 11-98) after row conversion: reject empty
row sets (line 30), reject a missing table (line 40), in replace mode run the
delete-all with its failure logged and swallowed (lines 45-58), then run the
batched insert loop and answer `success` with the counts (lines 82-88). -/
def handleInsert (beh : WhBehavior) (st : WhState) (rows : List Row)
    (mode tableId : String) : InsertResponse × WhState :=
  if rows.length = 0 then (.badRequest "No data rows found to insert", st)
  else if st.tableExists = false then
    (.notFound ("Table " ++ tableId ++ " does not exist"), st)
  else
    let st1 :=
      if mode = "replace" then
        match runDelete beh st with
        | .ok st2 => st2
        | .error _ => st
      else st
    let r := runBatches beh.insertSucceeds 0 st1.contents (chunkRows rows)
    (.ok r.1 rows.length tableId mode, { st1 with contents := r.2 })

example :
    (handleInsert ⟨false, fun _ => true⟩ ⟨true, [[("k", .cInt 9)]]⟩
        [[("a", .cInt 1)]] "replace" "d.t").1 =
      .ok 1 1 "d.t" "replace" := by
  simp +decide [handleInsert, chunkRows, chunkPos, runBatches, runDelete,
    batchSize]

example :
    (handleInsert ⟨true, fun i => i == 0⟩ ⟨true, []⟩
        [[("a", .cInt 1)]] "append" "d.t").1 =
      .ok 1 1 "d.t" "append" := by
  simp +decide [handleInsert, chunkRows, chunkPos, runBatches, runDelete,
    batchSize]

/-! ## Lemmas about the Value Type Classifier -/

/-- One `forEach` iteration increments exactly the counter named by
`voteOf`. -/
lemma tallyValue_voteOf (tc : TypeCounts) (v : JSValue) :
    tallyValue tc v =
      match voteOf v with
      | none => tc
      | some .boolean => { tc with boolean := tc.boolean + 1 }
      | some .integer => { tc with integer := tc.integer + 1 }
      | some .float => { tc with float := tc.float + 1 }
      | some .timestamp => { tc with timestamp := tc.timestamp + 1 }
      | some .date => { tc with date := tc.date + 1 }
      | some .vstring => { tc with string := tc.string + 1 } := by
  simp only [tallyValue, voteOf]
  split_ifs <;> rfl

/-- The `forEach` tally equals the declarative per-class vote counts. -/
lemma foldl_tally (values : List JSValue) (tc : TypeCounts) :
    values.foldl tallyValue tc =
      { integer := tc.integer + (values.filterMap voteOf).count .integer
        float := tc.float + (values.filterMap voteOf).count .float
        boolean := tc.boolean + (values.filterMap voteOf).count .boolean
        date := tc.date + (values.filterMap voteOf).count .date
        timestamp := tc.timestamp + (values.filterMap voteOf).count .timestamp
        string := tc.string + (values.filterMap voteOf).count .vstring } := by
  induction values generalizing tc with
  | nil => simp
  | cons v vs ih =>
    rw [List.foldl_cons, ih, List.filterMap_cons, tallyValue_voteOf]
    cases h : voteOf v with
    | none => rfl
    | some c => cases c <;> simp [List.count_cons] <;> omega

/-- Every vote lands in exactly one of the six counters. -/
lemma count_six (votes : List VClass) :
    votes.count .integer + votes.count .float + votes.count .boolean +
      votes.count .date + votes.count .timestamp + votes.count .vstring =
      votes.length := by
  induction votes with
  | nil => rfl
  | cons c cs ih => cases c <;> simp [List.count_cons] <;> omega

/-- The classifier agrees with its declarative description. -/
lemma inferColumnType_eq_spec (values : List JSValue) :
    inferColumnType values = inferColumnTypeSpec values := by
  unfold inferColumnType inferColumnTypeSpec
  cases hemp : values.isEmpty
  · simp only [Bool.false_eq_true, if_false]
    rw [foldl_tally]
    simp only [TypeCounts.zero, Nat.zero_add]
    rw [count_six (values.filterMap voteOf)]
  · rfl

/-- C2 counterexample input: three single-digit tokens.  `"1"` is in the
boolean token set, so integer receives two of three votes, below the 70%
threshold, and the classifier answers STRING — not INTEGER as the claim's
example asserts. -/
theorem c2_example_counterexample :
    inferColumnType (["1", "2", "3"].map .vStr) ≠ .INTEGER ∧
      inferColumnType (["1", "2", "3"].map .vStr) = .STRING := by
  constructor <;> decide

/-- C2 (amended): `inferColumnType` returns STRING on empty input; otherwise
every non-blank, non-"null" value casts exactly one vote, tested in the order
boolean set, integer, float, timestamp, date, string; the result is the first
of INTEGER, FLOAT, BOOLEAN, TIMESTAMP, DATE whose votes reach 70% of the vote
total, else STRING (all captured by `inferColumnTypeSpec`).  The worked
examples hold with one correction: `classify(["1","2","3"])` is STRING,
because `"1"` votes boolean and integer's two of three votes miss the 70%
bar. -/
theorem c2_classifier_behavior :
    (∀ values : List JSValue,
        inferColumnType values = inferColumnTypeSpec values) ∧
      inferColumnType [] = .STRING ∧
      inferColumnType (["1", "2", "3"].map .vStr) = .STRING ∧
      inferColumnType (["1.5", "2.5"].map .vStr) = .FLOAT ∧
      inferColumnType (["true", "false", "1"].map .vStr) = .BOOLEAN ∧
      inferColumnType (["2024-01-01", "2024-02-02"].map .vStr) = .DATE ∧
      inferColumnType (["a", "b", "1"].map .vStr) = .STRING :=
  ⟨inferColumnType_eq_spec, by decide, by decide, by decide, by decide,
    by decide, by decide⟩

/-- C10: a non-empty column whose every value is blank or "null" (after
stringify + trim) is classified INTEGER: all values are skipped, the vote
total is zero, and integer is the first type whose count (zero) reaches the
zero threshold. -/
theorem c10_all_skipped_is_integer (values : List JSValue)
    (hne : values ≠ [])
    (hskip : ∀ v ∈ values, jsTrim (jsValueToString v) = "" ∨
      jsStrLower (jsTrim (jsValueToString v)) = "null") :
    inferColumnType values = .INTEGER := by
  rw [inferColumnType_eq_spec]
  unfold inferColumnTypeSpec
  have hvotes : values.filterMap voteOf = [] := by
    rw [List.filterMap_eq_nil_iff]
    intro v hv
    rcases hskip v hv with h | h <;> simp [voteOf, h]
  rw [if_neg (by simp [List.isEmpty_iff, hne]), hvotes]
  simp

/-- Witness for C10 at a concrete column of blanks and "null" spellings. -/
theorem c10_witness :
    ([JSValue.vStr "", JSValue.vStr "NULL", JSValue.vStr " null "] ≠
        ([] : List JSValue)) ∧
      inferColumnType [JSValue.vStr "", JSValue.vStr "NULL",
        JSValue.vStr " null "] = .INTEGER :=
  ⟨List.cons_ne_nil _ _,
    c10_all_skipped_is_integer _ (List.cons_ne_nil _ _) (by decide)⟩

/-! ## The INTEGER round-trip (inference-time vote versus conversion) -/

/-- The converter's boolean-true tokens all belong to the classifier's
boolean set. -/
lemma true_tokens_in_boolSet (s : String) :
    (["true", "yes", "y", "1"].contains s) = true → boolSet.contains s = true := by
  intro h
  have hs : s = "true" ∨ s = "yes" ∨ s = "y" ∨ s = "1" := by
    simpa using h
  rcases hs with rfl | rfl | rfl | rfl <;> decide

/-- The converter's boolean-false tokens all belong to the classifier's
boolean set. -/
lemma false_tokens_in_boolSet (s : String) :
    (["false", "no", "n", "0"].contains s) = true →
      boolSet.contains s = true := by
  intro h
  have hs : s = "false" ∨ s = "no" ∨ s = "n" ∨ s = "0" := by
    simpa using h
  rcases hs with rfl | rfl | rfl | rfl <;> decide

/-- C3: a value that the classifier counts as an integer vote (it survives
the blank/"null" skip, misses the boolean token set and matches `/^-?\d+$/`)
is converted by `convertValue` to the number `parseInt` produces on its
trimmed stringification — never a boolean, string or null. -/
theorem c3_integer_roundtrip (values : List JSValue) (v : JSValue)
    (_hv : v ∈ values) (hint : voteOf v = some VClass.integer) :
    convertValue v = .cInt (jsParseInt (jsTrim (jsValueToString v))) := by
  simp only [voteOf] at hint
  split_ifs at hint with hskip hbool hmatch hfloat hts hdate <;>
    simp_all only [Option.some.injEq, reduceCtorEq]
  cases v with
  | vNull =>
    exfalso
    apply hskip
    decide
  | vBool b =>
    cases b <;> exfalso <;> apply hbool <;> revert hskip <;> decide
  | vInt n =>
    simp only [convertValue]
    rw [if_neg hskip,
      if_neg (fun hc => hbool (true_tokens_in_boolSet _ hc)),
      if_neg (fun hc => hbool (false_tokens_in_boolSet _ hc)),
      if_pos hmatch]
  | vStr s =>
    simp only [convertValue]
    rw [if_neg hskip,
      if_neg (fun hc => hbool (true_tokens_in_boolSet _ hc)),
      if_neg (fun hc => hbool (false_tokens_in_boolSet _ hc)),
      if_pos hmatch]
  | vArr xs =>
    simp only [convertValue]
    rw [if_neg hskip,
      if_neg (fun hc => hbool (true_tokens_in_boolSet _ hc)),
      if_neg (fun hc => hbool (false_tokens_in_boolSet _ hc)),
      if_pos hmatch]
  | vObj fs =>
    simp only [convertValue]
    rw [if_neg hskip,
      if_neg (fun hc => hbool (true_tokens_in_boolSet _ hc)),
      if_neg (fun hc => hbool (false_tokens_in_boolSet _ hc)),
      if_pos hmatch]

/-- Witness for C3 at the sampled column `[" 42 ", "non-numeric"]`, whose
first value votes integer. -/
theorem c3_witness :
    (JSValue.vStr " 42 " ∈ [JSValue.vStr " 42 ", JSValue.vStr "abc"]) ∧
      voteOf (JSValue.vStr " 42 ") = some VClass.integer ∧
      convertValue (JSValue.vStr " 42 ") = .cInt 42 :=
  ⟨List.mem_cons_self _ _, by decide, by
    have h := c3_integer_roundtrip [JSValue.vStr " 42 ", JSValue.vStr "abc"]
      (JSValue.vStr " 42 ") (List.mem_cons_self _ _) (by decide)
    simpa using h⟩

/-! ## JSON row conversion (C4) -/

/-- A record is accepted by the JavaScript object check
(`typeof record === 'object' && record !== null`) exactly when
`recordEntries` yields its key/value pairs. -/
def isRecordLike (v : JSValue) : Bool :=
  (recordEntries v).isSome

/-- The `records.map` of `parseJSON`: if every record passes the JavaScript
object check the map yields one cleaned row per record, otherwise the first
failing record throws for the whole map. -/
lemma mapRecords_spec (elems : List JSValue) :
    mapRecords elems =
      if elems.all isRecordLike then
        .ok (elems.map fun e => cleanRecord ((recordEntries e).getD []))
      else .error "Each record must be an object" := by
  induction elems with
  | nil => rfl
  | cons e es ih =>
    simp only [mapRecords, List.all_cons, List.map_cons]
    cases h : recordEntries e with
    | none => simp [isRecordLike, h]
    | some entries =>
      rw [ih]
      by_cases hall : es.all isRecordLike
      · simp [isRecordLike, h, hall]
        rfl
      · simp only [isRecordLike, h, hall]
        simp [hall]
        rfl

/-- C4 counterexample: the element `[]` of the top-level array `[[]]` is a
JSON array, not a JSON object, yet `parseJSON` does not fail: JavaScript's
`typeof` calls arrays objects, so the element is converted to one (empty)
row. -/
theorem c4_counterexample :
    isJsonObject (JSValue.vArr []) = false ∧
      parseJSON (.vArr [.vArr []]) = .ok [[]] ∧
      ([([] : Row)] : List Row).length = 1 := by
  refine ⟨rfl, by decide, rfl⟩

/-- C4 (amended): for a successfully parsed top-level array, if some element
is `null` or a scalar (string, number or boolean) then `parseJSON` fails for
the whole operation with the wrapped record error and returns no rows; if
every element is an object or an array (arrays count as objects for the
JavaScript `typeof` check, keyed by element index), every element is
converted to exactly one row, in order. -/
theorem c4_json_conversion (elems : List JSValue) :
    parseJSON (.vArr elems) =
      if elems.all isRecordLike then
        .ok (elems.map fun e => cleanRecord ((recordEntries e).getD []))
      else .error "Invalid JSON format: Each record must be an object" := by
  simp only [parseJSON, mapRecords_spec]
  by_cases hall : elems.all isRecordLike <;> simp [hall]

/-! ## CSV row conversion (C5) -/

/-- The data-line loop keeps exactly the lines whose token count matches the
header's, one row per kept line, in order. -/
lemma csvRowsLoop_eq (headers : List String) (ls : List String) :
    csvRowsLoop headers ls =
      (ls.filter fun line =>
          (parseCSVLine line).length = headers.length).map
        fun line => mkCSVRow headers (parseCSVLine line) := by
  induction ls with
  | nil => rfl
  | cons l ls ih =>
    simp only [csvRowsLoop, List.filter_cons]
    by_cases h : (parseCSVLine l).length = headers.length
    · simp [h, ih]
    · simp [h, ih]

/-- Split of a list's length by a Boolean filter and its negation. -/
lemma filter_length_split {α : Type} (p : α → Bool) (l : List α) :
    (l.filter p).length + (l.filter fun a => !(p a)).length = l.length := by
  induction l with
  | nil => rfl
  | cons a l ih =>
    by_cases h : p a <;> simp [List.filter_cons, h] <;> omega

/-- C5: on a CSV document with a header line and at least one data line,
`parseCSV` succeeds with exactly one row per data line whose token count
matches the header's, in order; mismatched lines are dropped whole, so the
row count is the data-line count minus the mismatched-line count. -/
theorem c5_csv_row_conversion (content : String) (l0 : String)
    (rest : List String) (hsplit : csvLines content = l0 :: rest)
    (hne : rest ≠ []) :
    ∃ rows, parseCSV content = .ok rows ∧
      rows = (rest.filter fun line =>
          (parseCSVLine line).length = (parseCSVLine l0).length).map
        (fun line => mkCSVRow (parseCSVLine l0) (parseCSVLine line)) ∧
      rows.length = rest.length - (rest.filter fun line =>
          ¬((parseCSVLine line).length = (parseCSVLine l0).length)).length := by
  obtain ⟨r1, rest2, rfl⟩ : ∃ r1 rest2, rest = r1 :: rest2 := by
    cases rest with
    | nil => exact absurd rfl hne
    | cons r1 rest2 => exact ⟨r1, rest2, rfl⟩
  refine ⟨csvRowsLoop (parseCSVLine l0) (r1 :: rest2), ?_, ?_, ?_⟩
  · simp only [parseCSV, hsplit]
  · exact csvRowsLoop_eq _ _
  · rw [csvRowsLoop_eq, List.length_map]
    have hsp := filter_length_split
      (fun line => decide ((parseCSVLine line).length =
        (parseCSVLine l0).length)) (r1 :: rest2)
    simp only [decide_not] at hsp ⊢
    omega

/-- Witness for C5 on a concrete CSV with one malformed data line: three data
lines, one dropped, two rows produced. -/
theorem c5_witness :
    csvLines "a,b\n1,2\n1,2,3\nx,z" = "a,b" :: ["1,2", "1,2,3", "x,z"] ∧
      (["1,2", "1,2,3", "x,z"] : List String) ≠ [] ∧
      ∃ rows, parseCSV "a,b\n1,2\n1,2,3\nx,z" = .ok rows ∧
        rows = ((["1,2", "1,2,3", "x,z"] : List String).filter fun line =>
            (parseCSVLine line).length = (parseCSVLine "a,b").length).map
          (fun line => mkCSVRow (parseCSVLine "a,b") (parseCSVLine line)) ∧
        rows.length = (["1,2", "1,2,3", "x,z"] : List String).length -
          ((["1,2", "1,2,3", "x,z"] : List String).filter fun line =>
            ¬((parseCSVLine line).length =
              (parseCSVLine "a,b").length)).length :=
  ⟨by decide, by simp,
    c5_csv_row_conversion "a,b\n1,2\n1,2,3\nx,z" "a,b" ["1,2", "1,2,3", "x,z"]
      (by decide) (by simp)⟩

/-! ## Load orchestrator lemmas (C6, C7) -/

/-- Concatenating the batches restores the row list: the partition loses and
duplicates nothing and keeps the order. -/
lemma chunkPos_join (n : Nat) (l : List Row) : (chunkPos n l).flatten = l := by
  induction l using chunkPos.induct n with
  | case1 => simp [chunkPos]
  | case2 x xs ih =>
    rw [chunkPos]
    simp only [List.flatten_cons, ih, List.cons_append]
    rw [List.take_append_drop]

/-- Every batch holds at most `n + 1` rows. -/
lemma chunkPos_mem_length (n : Nat) (l : List Row) (b : List Row)
    (hb : b ∈ chunkPos n l) : b.length ≤ n + 1 := by
  induction l using chunkPos.induct n with
  | case1 => simp [chunkPos] at hb
  | case2 x xs ih =>
    rw [chunkPos] at hb
    rcases List.mem_cons.mp hb with rfl | hmem
    · simp only [List.length_cons, List.length_take]
      omega
    · exact ih hmem

/-- The loop's `totalInserted` is the sum of the sizes of exactly the batches
whose insert call succeeded, independent of the table contents and with every
batch attempted regardless of earlier failures. -/
lemma runBatches_fst (ins : Nat → Bool) (i : Nat) (c : List Row)
    (bs : List (List Row)) :
    (runBatches ins i c bs).1 =
      (((bs.enumFrom i).filter fun p => ins p.1).map
        fun p => p.2.length).sum := by
  induction bs generalizing i c with
  | nil => rfl
  | cons b bs ih =>
    simp only [runBatches, List.enumFrom, List.filter_cons]
    by_cases h : ins i
    · simp [h, ih]
    · simp [h, ih]

/-- The counter `totalInserted` never exceeds the number of rows offered. -/
lemma runBatches_fst_le (ins : Nat → Bool) (i : Nat) (c : List Row)
    (bs : List (List Row)) :
    (runBatches ins i c bs).1 ≤ (bs.map fun b => b.length).sum := by
  induction bs generalizing i c with
  | nil => exact Nat.le_refl 0
  | cons b bs ih =>
    simp only [runBatches, List.map_cons, List.sum_cons]
    by_cases h : ins i
    · simp only [h, if_pos]
      have := ih (i + 1) (c ++ b)
      omega
    · simp only [h, if_neg, Bool.false_eq_true, not_false_iff]
      have := ih (i + 1) c
      omega

/-- C6: the converted rows are partitioned in order into consecutive batches
of at most 1000 rows; the handler submits every batch (failures of earlier
batches do not remove later ones from the sum), reports success with
`totalRows` equal to the row count and `rowsInserted` equal to the summed
sizes of exactly the successful batches, which is at most `totalRows`. -/
lemma handleInsert_fst (beh : WhBehavior) (st : WhState) (rows : List Row)
    (mode tableId : String) (hex : st.tableExists = true) (hne : rows ≠ []) :
    (handleInsert beh st rows mode tableId).1 =
      .ok ((((chunkRows rows).enumFrom 0).filter fun p =>
          beh.insertSucceeds p.1).map fun p => p.2.length).sum
        rows.length tableId mode := by
  unfold handleInsert
  rw [if_neg (by simp [hne] : ¬(rows.length = 0)), hex,
    if_neg (by decide : ¬(true = false))]
  simp [runBatches_fst]

/-- On the success path the handler answers success with the
succeeded-batch sum and the total row count. -/
lemma handleInsert_ok (beh : WhBehavior) (st : WhState) (rows : List Row)
    (mode tableId : String) (hex : st.tableExists = true) (hne : rows ≠ []) :
    ∃ st2, handleInsert beh st rows mode tableId =
      (.ok ((((chunkRows rows).enumFrom 0).filter fun p =>
          beh.insertSucceeds p.1).map fun p => p.2.length).sum
        rows.length tableId mode, st2) :=
  ⟨(handleInsert beh st rows mode tableId).2, by
    rw [Prod.ext_iff]
    exact ⟨handleInsert_fst beh st rows mode tableId hex hne, rfl⟩⟩

/-- The succeeded-batch sum is bounded by the total number of rows. -/
lemma succeeded_sum_le (ins : Nat → Bool) (rows : List Row) :
    ((((chunkRows rows).enumFrom 0).filter fun p => ins p.1).map
      fun p => p.2.length).sum ≤ rows.length := by
  rw [← runBatches_fst ins 0 [] (chunkRows rows)]
  have h1 := runBatches_fst_le ins 0 [] (chunkRows rows)
  have h2 : ((chunkRows rows).map fun b => b.length).sum = rows.length := by
    conv_rhs => rw [← chunkPos_join (batchSize - 1) rows]
    rw [List.length_flatten]
    rfl
  omega

/-- C6: the converted rows are partitioned in order into consecutive batches
of at most 1000 rows; the handler submits every batch (failures of earlier
batches do not remove later ones from the sum), reports success with
`totalRows` equal to the row count and `rowsInserted` equal to the summed
sizes of exactly the successful batches, which is at most `totalRows`. -/
theorem c6_batched_insert (beh : WhBehavior) (st : WhState) (rows : List Row)
    (mode tableId : String) (hex : st.tableExists = true) (hne : rows ≠ []) :
    (chunkRows rows).flatten = rows ∧
      (∀ b ∈ chunkRows rows, b.length ≤ batchSize) ∧
      (∃ st2, handleInsert beh st rows mode tableId =
        (.ok ((((chunkRows rows).enumFrom 0).filter fun p =>
            beh.insertSucceeds p.1).map fun p => p.2.length).sum
          rows.length tableId mode, st2)) ∧
      ((((chunkRows rows).enumFrom 0).filter fun p =>
          beh.insertSucceeds p.1).map fun p => p.2.length).sum ≤
        rows.length := by
  refine ⟨chunkPos_join _ rows, ?_,
    handleInsert_ok beh st rows mode tableId hex hne,
    succeeded_sum_le _ _⟩
  intro b hb
  have := chunkPos_mem_length (batchSize - 1) rows b hb
  simpa [batchSize] using this

/-- Witness for C6 at a one-row load against an existing table. -/
theorem c6_witness :
    (WhState.mk true []).tableExists = true ∧
      ([[("a", ConvValue.cInt 1)]] : List Row) ≠ [] ∧
      ((chunkRows [[("a", ConvValue.cInt 1)]]).flatten =
          [[("a", ConvValue.cInt 1)]] ∧
        (∀ b ∈ chunkRows [[("a", ConvValue.cInt 1)]],
          b.length ≤ batchSize) ∧
        (∃ st2, handleInsert ⟨true, fun _ => true⟩ ⟨true, []⟩
            [[("a", ConvValue.cInt 1)]] "append" "d.t" =
          (.ok ((((chunkRows [[("a", ConvValue.cInt 1)]]).enumFrom 0).filter
              fun p => (fun _ => true : Nat → Bool) p.1).map
            fun p => p.2.length).sum 1 "d.t" "append", st2)) ∧
        ((((chunkRows [[("a", ConvValue.cInt 1)]]).enumFrom 0).filter
            fun p => (fun _ => true : Nat → Bool) p.1).map
          fun p => p.2.length).sum ≤ 1) :=
  ⟨rfl, by simp,
    c6_batched_insert ⟨true, fun _ => true⟩ ⟨true, []⟩
      [[("a", ConvValue.cInt 1)]] "append" "d.t" rfl (by simp)⟩

/-- C7: in replace mode against an existing table, a failing delete-all is
swallowed: the handler produces the same response as when the purge succeeds,
namely success with `rowsInserted` between 0 and the row count — never an
error derived from the purge. -/
theorem c7_purge_failure_swallowed (ins : Nat → Bool) (st : WhState)
    (rows : List Row) (tableId : String)
    (hex : st.tableExists = true) (hne : rows ≠ []) :
    (handleInsert ⟨false, ins⟩ st rows "replace" tableId).1 =
      (handleInsert ⟨true, ins⟩ st rows "replace" tableId).1 ∧
      ∃ n st2, handleInsert ⟨false, ins⟩ st rows "replace" tableId =
        (.ok n rows.length tableId "replace", st2) ∧ n ≤ rows.length := by
  constructor
  · rw [handleInsert_fst ⟨false, ins⟩ st rows "replace" tableId hex hne,
      handleInsert_fst ⟨true, ins⟩ st rows "replace" tableId hex hne]
  · obtain ⟨st2, hst⟩ :=
      handleInsert_ok ⟨false, ins⟩ st rows "replace" tableId hex hne
    exact ⟨_, st2, hst, succeeded_sum_le ins rows⟩

/-- Witness for C7 at a one-row replace load whose purge fails. -/
theorem c7_witness :
    (WhState.mk true [[("old", ConvValue.cInt 0)]]).tableExists = true ∧
      ([[("a", ConvValue.cInt 1)]] : List Row) ≠ [] ∧
      ((handleInsert ⟨false, fun _ => true⟩
            ⟨true, [[("old", ConvValue.cInt 0)]]⟩
            [[("a", ConvValue.cInt 1)]] "replace" "d.t").1 =
        (handleInsert ⟨true, fun _ => true⟩
            ⟨true, [[("old", ConvValue.cInt 0)]]⟩
            [[("a", ConvValue.cInt 1)]] "replace" "d.t").1 ∧
        ∃ n st2, handleInsert ⟨false, fun _ => true⟩
            ⟨true, [[("old", ConvValue.cInt 0)]]⟩
            [[("a", ConvValue.cInt 1)]] "replace" "d.t" =
          (.ok n 1 "d.t" "replace", st2) ∧ n ≤ 1) :=
  ⟨rfl, by simp,
    c7_purge_failure_swallowed (fun _ => true)
      ⟨true, [[("old", ConvValue.cInt 0)]]⟩
      [[("a", ConvValue.cInt 1)]] "d.t" rfl (by simp)⟩

/-! ## CSV schema inference: nullability (C8) -/

/-- The kept entries of a sampled column, counted per row: a row contributes
exactly when it has a present, non-empty token at position `j`. -/
lemma column_keep_countP (rows : List (List String)) (j : Nat) :
    (((rows.map fun row => row.get? j).filterMap id).filter
        (· ≠ "")).length =
      rows.countP (fun row => match row.get? j with
        | some v => decide (v ≠ "")
        | none => false) := by
  induction rows with
  | nil => rfl
  | cons r rows ih =>
    simp only [List.map_cons, List.filterMap_cons, List.countP_cons]
    cases h : r.get? j with
    | none => simpa [h] using ih
    | some v =>
      by_cases hv : v = ""
      · subst hv
        simpa [h] using ih
      · simp [h, hv] at ih ⊢
        omega

/-- The sampled column at position `j` keeps all its entries under the
present/non-empty filter exactly when every sampled row has a non-empty token
at `j`. -/
lemma column_full_iff (rows : List (List String)) (j : Nat) :
    (((rows.map fun row => row.get? j).filterMap id).filter
        (· ≠ "")).length = rows.length ↔
      ∀ row ∈ rows, ∃ v, row.get? j = some v ∧ v ≠ "" := by
  rw [column_keep_countP, List.countP_eq_length]
  constructor
  · intro hall row hmem
    have hrow := hall row hmem
    cases h : row.get? j with
    | none => rw [h] at hrow; cases hrow
    | some v =>
      rw [h] at hrow
      exact ⟨v, rfl, by simpa using hrow⟩
  · intro hall row hmem
    obtain ⟨v, hv, hvne⟩ := hall row hmem
    rw [hv]
    simpa using hvne

/-- The REQUIRED/NULLABLE verdict of one inferred field, characterised. -/
lemma csvFieldAt_mode_iff (sampleRows : List (List String)) (j : Nat)
    (header : String) :
    ((csvFieldAt sampleRows j header).mode = .REQUIRED ↔
      ∀ row ∈ sampleRows, ∃ v, row.get? j = some v ∧ v ≠ "") := by
  rw [← column_full_iff]
  unfold csvFieldAt
  by_cases hc : (((sampleRows.map fun row => row.get? j).filterMap id).filter
      (· ≠ "")).length = sampleRows.length
  · simp [hc]
  · simp [hc]

/-- C8 counterexample: on the claim's own CSV text, the inferred type of `id`
is STRING, not INTEGER — the sampled token `"1"` votes boolean, so integer
holds two of three votes, under the 70% bar (the modes and the `name` field
match the claim). -/
theorem c8_counterexample :
    detectCSVSchema "id,name\n1,Alice\n2,Bob\n3," =
      .ok [⟨"id", .STRING, .REQUIRED⟩, ⟨"name", .STRING, .NULLABLE⟩] ∧
      BQType.STRING ≠ BQType.INTEGER := by
  constructor <;> decide

/-- C8 (amended): a field's mode is REQUIRED exactly when every sampled row
supplies a present, non-empty token at the field's position, and NULLABLE
otherwise; on the CSV text `id,name\n1,Alice\n2,Bob\n3,` this gives `id`
REQUIRED and `name` NULLABLE, with both types STRING (the `id` column's token
`"1"` votes boolean, leaving integer below the 70% threshold). -/
theorem c8_required_iff_all_present :
    (∀ (content l0 : String) (rest : List String)
        (_ : csvLines content = l0 :: rest)
        (flds : List SchemaField) (_ : detectCSVSchema content = .ok flds)
        (j : Nat) (fld : SchemaField) (_ : flds.get? j = some fld),
        (fld.mode = .REQUIRED ↔
          ∀ row ∈ (rest.take 10).map parseCSVLine,
            ∃ v, row.get? j = some v ∧ v ≠ "")) ∧
      detectCSVSchema "id,name\n1,Alice\n2,Bob\n3," =
        .ok [⟨"id", .STRING, .REQUIRED⟩, ⟨"name", .STRING, .NULLABLE⟩] := by
  constructor
  · intro content l0 rest hsplit flds hok j fld hget
    cases rest with
    | nil =>
      rw [show detectCSVSchema content =
          .error "CSV must have at least a header and one data row" by
        unfold detectCSVSchema; rw [hsplit]] at hok
      cases hok
    | cons r1 rest2 =>
      rw [show detectCSVSchema content =
          .ok ((parseCSVLine l0).enum.map fun p =>
            csvFieldAt (((r1 :: rest2).take 10).map parseCSVLine) p.1 p.2) by
        unfold detectCSVSchema; rw [hsplit]] at hok
      injection hok with hok
      subst hok
      rw [List.get?_eq_getElem?, List.getElem?_map, List.getElem?_enum]
        at hget
      cases hx : (parseCSVLine l0)[j]? with
      | none => rw [hx] at hget; cases hget
      | some a =>
        rw [hx] at hget
        simp only [Option.map_some', Option.some.injEq] at hget
        subst hget
        exact csvFieldAt_mode_iff _ _ _
  · decide

/-- Witness for C8 at the concrete CSV text and its first field. -/
theorem c8_witness :
    csvLines "id,name\n1,Alice\n2,Bob\n3," =
        "id,name" :: ["1,Alice", "2,Bob", "3,"] ∧
      detectCSVSchema "id,name\n1,Alice\n2,Bob\n3," =
        .ok [⟨"id", .STRING, .REQUIRED⟩, ⟨"name", .STRING, .NULLABLE⟩] ∧
      ([⟨"id", .STRING, .REQUIRED⟩, ⟨"name", .STRING, .NULLABLE⟩] :
          List SchemaField).get? 0 = some ⟨"id", .STRING, .REQUIRED⟩ ∧
      ((⟨"id", .STRING, .REQUIRED⟩ : SchemaField).mode = .REQUIRED ↔
        ∀ row ∈ ((["1,Alice", "2,Bob", "3,"] : List String).take 10).map
            parseCSVLine,
          ∃ v, row.get? 0 = some v ∧ v ≠ "") :=
  ⟨by decide, by decide, by decide,
    c8_required_iff_all_present.1 "id,name\n1,Alice\n2,Bob\n3," "id,name"
      ["1,Alice", "2,Bob", "3,"] (by decide)
      [⟨"id", .STRING, .REQUIRED⟩, ⟨"name", .STRING, .NULLABLE⟩]
      (by decide) 0 ⟨"id", .STRING, .REQUIRED⟩ (by decide)⟩

/-! ## The Identifier Sanitizer claims (C1, C9) -/

/-- The regex `^[a-zA-Z_][a-zA-Z0-9_]*$` of the claim: a valid BigQuery
field identifier. -/
def matchesIdentPat (s : String) : Bool :=
  match s.toList with
  | [] => false
  | c :: rest => isLeadChar c && rest.all isWordChar

/-- C1 failing input: on `"1abc"` the sanitizer first prefixes the protective
underscore (`"_1abc"`) and then strips it again as a leading underscore,
returning `"1abc"` — a string that starts with a digit, matching neither the
identifier regex nor the fallback, contrary to the stated invariant and to
the source's own comment that field names must start with a letter or
underscore. -/
theorem c1_leading_digit_escapes_sanitizer :
    sanitizeFieldName "1abc" = "1abc" ∧
      matchesIdentPat "1abc" = false ∧
      ("1abc" : String) ≠ "unnamed_field" := by
  refine ⟨by decide, by decide, by decide⟩

/-! ### Character facts for the idempotence proof -/

lemma toNat_ofNat_valid (n : Nat) (h : n.isValidChar) :
    (Char.ofNat n).toNat = n := by
  unfold Char.ofNat
  rw [dif_pos h]
  rfl

/-- Unpacked form of `isLowerWord`. -/
lemma isLowerWord_iff (c : Char) :
    isLowerWord c = true ↔
      (97 ≤ c.toNat ∧ c.toNat ≤ 122) ∨ (48 ≤ c.toNat ∧ c.toNat ≤ 57) ∨
        c.toNat = 95 := by
  simp only [isLowerWord, Bool.or_eq_true, Bool.and_eq_true,
    decide_eq_true_eq, beq_iff_eq]
  tauto

/-- A sanitizer-output character is not JavaScript whitespace. -/
lemma lowerWord_not_space (c : Char) (h : isLowerWord c = true) :
    isJsSpace c = false := by
  rw [isLowerWord_iff] at h
  by_contra hs
  rw [Bool.not_eq_false] at hs
  simp only [isJsSpace, Bool.or_eq_true, beq_iff_eq] at hs
  rcases hs with ((((((rfl | rfl) | rfl) | rfl) | rfl) | rfl) | rfl) | rfl <;>
    revert h <;> decide

/-- A sanitizer-output character is unchanged by lowercasing. -/
lemma jsToLower_lowerWord (c : Char) (h : isLowerWord c = true) :
    jsToLower c = c := by
  rw [isLowerWord_iff] at h
  unfold jsToLower
  rw [if_neg (by omega)]

/-- Lowercasing never produces an uppercase letter. -/
lemma jsToLower_not_upper (c : Char) :
    ¬(65 ≤ (jsToLower c).toNat ∧ (jsToLower c).toNat ≤ 90) := by
  unfold jsToLower
  by_cases h : 65 ≤ c.toNat ∧ c.toNat ≤ 90
  · rw [if_pos h, toNat_ofNat_valid (c.toNat + 32) (Or.inl (by omega))]
    omega
  · rw [if_neg h]
    omega

/-- A sanitizer-output character is a word character. -/
lemma lowerWord_isWordChar (c : Char) (h : isLowerWord c = true) :
    isWordChar c = true := by
  rw [isLowerWord_iff] at h
  simp only [isWordChar, Bool.or_eq_true, Bool.and_eq_true, decide_eq_true_eq,
    beq_iff_eq]
  omega

/-! ### List facts for the idempotence proof -/

lemma dropWhile_of_all_neg {p : Char → Bool} {l : List Char}
    (h : ∀ c ∈ l, p c = false) : l.dropWhile p = l := by
  cases l with
  | nil => rfl
  | cons c t =>
    exact List.dropWhile_cons_of_neg (by simp [h c (List.mem_cons_self c t)])

lemma dropWhile_of_head_neg {p : Char → Bool} {l : List Char}
    (h : ∀ c, l.head? = some c → p c = false) : l.dropWhile p = l := by
  cases l with
  | nil => rfl
  | cons c t => exact List.dropWhile_cons_of_neg (by simp [h c rfl])

/-- Trimming fixes a string with no whitespace characters. -/
lemma jsTrimList_of_no_space (cs : List Char)
    (h : ∀ c ∈ cs, isJsSpace c = false) : jsTrimList cs = cs := by
  unfold jsTrimList
  rw [dropWhile_of_all_neg h,
    dropWhile_of_all_neg (fun c hc => h c (List.mem_reverse.mp hc)),
    List.reverse_reverse]

lemma map_eq_self_of {f : Char → Char} {l : List Char}
    (h : ∀ c ∈ l, f c = c) : l.map f = l := by
  induction l with
  | nil => rfl
  | cons c t ih =>
    rw [List.map_cons, h c (List.mem_cons_self c t),
      ih fun d hd => h d (List.mem_cons_of_mem c hd)]

/-- Replacement fixes a string made of word characters. -/
lemma replaceNonWord_of_word (l : List Char)
    (h : ∀ c ∈ l, isWordChar c = true) : replaceNonWord l = l :=
  map_eq_self_of fun c hc => by rw [if_pos (h c hc)]

/-- No two adjacent underscores: the shape `/__+/g` replacement guarantees
and `collapseUnd` establishes. -/
def noDouble : List Char → Bool
  | [] => true
  | [_] => true
  | c :: d :: rest => !(c == '_' && d == '_') && noDouble (d :: rest)

lemma noDouble_tail (c : Char) (l : List Char)
    (h : noDouble (c :: l) = true) : noDouble l = true := by
  cases l with
  | nil => rfl
  | cons d t =>
    simp only [noDouble, Bool.and_eq_true] at h
    exact h.2

lemma collapseUnd_eq_self (l : List Char) (h : noDouble l = true) :
    collapseUnd l = l := by
  induction l with
  | nil => rfl
  | cons c t ih =>
    cases t with
    | nil => rfl
    | cons d r =>
      simp only [noDouble, Bool.and_eq_true, Bool.not_eq_true'] at h
      rw [collapseUnd, if_neg (by simp [h.1]), ih h.2]

lemma collapseUnd_head? (l : List Char) :
    (collapseUnd l).head? = l.head? := by
  induction l with
  | nil => rfl
  | cons c t ih =>
    cases t with
    | nil => rfl
    | cons d r =>
      rw [collapseUnd]
      by_cases hc : (c == '_' && d == '_') = true
      · have hcd : c = '_' ∧ d = '_' := by simpa using hc
        rw [if_pos hc, ih]
        rw [List.head?_cons, List.head?_cons, hcd.1, hcd.2]
      · rw [if_neg hc, List.head?_cons, List.head?_cons]

lemma noDouble_collapseUnd (l : List Char) :
    noDouble (collapseUnd l) = true := by
  induction l with
  | nil => rfl
  | cons c t ih =>
    cases t with
    | nil => rfl
    | cons d r =>
      rw [collapseUnd]
      by_cases hc : (c == '_' && d == '_') = true
      · rw [if_pos hc]
        exact ih
      · rw [if_neg hc]
        have hh := collapseUnd_head? (d :: r)
        cases hcol : collapseUnd (d :: r) with
        | nil => rw [hcol] at hh; cases hh
        | cons e s =>
          rw [hcol] at hh ih
          rw [List.head?_cons, List.head?_cons] at hh
          injection hh with hh
          subst hh
          simp only [noDouble, Bool.and_eq_true]
          have hx : (c == '_' && e == '_') = false := by
            revert hc
            cases c == '_' && e == '_' <;> simp
          rw [hx]
          exact ⟨rfl, ih⟩

lemma mem_collapseUnd (l : List Char) (c : Char)
    (h : c ∈ collapseUnd l) : c ∈ l := by
  induction l with
  | nil => exact h
  | cons a t ih =>
    cases t with
    | nil => simpa [collapseUnd] using h
    | cons d r =>
      rw [collapseUnd] at h
      by_cases hc : (a == '_' && d == '_') = true
      · rw [if_pos hc] at h
        exact List.mem_cons_of_mem a (ih h)
      · rw [if_neg hc] at h
        rcases List.mem_cons.mp h with rfl | h2
        · exact List.mem_cons_self _ _
        · exact List.mem_cons_of_mem a (ih h2)

lemma noDouble_dropWhile (p : Char → Bool) (l : List Char)
    (h : noDouble l = true) : noDouble (l.dropWhile p) = true := by
  induction l with
  | nil => exact h
  | cons c t ih =>
    rw [List.dropWhile_cons]
    by_cases hp : p c = true
    · rw [if_pos hp]
      exact ih (noDouble_tail c t h)
    · rw [if_neg hp]
      exact h

lemma noDouble_append_one (l : List Char) (c : Char)
    (h : noDouble l = true)
    (hlast : ∀ d, l.getLast? = some d → ¬(d = '_' ∧ c = '_')) :
    noDouble (l ++ [c]) = true := by
  induction l with
  | nil => rfl
  | cons a t ih =>
    cases t with
    | nil =>
      have hac := hlast a rfl
      have hb : (a == '_' && c == '_') = false := by
        by_contra hb2
        rw [Bool.not_eq_false, Bool.and_eq_true, beq_iff_eq, beq_iff_eq]
          at hb2
        exact hac hb2
      simp [List.cons_append, noDouble, hb]
    | cons b r =>
      simp only [noDouble, Bool.and_eq_true] at h
      simp only [List.cons_append, noDouble, Bool.and_eq_true]
      refine ⟨h.1, ?_⟩
      have := ih h.2 fun d hd => hlast d (by
        rw [List.getLast?_cons_cons]
        exact hd)
      simpa using this

lemma noDouble_reverse (l : List Char) (h : noDouble l = true) :
    noDouble l.reverse = true := by
  induction l with
  | nil => rfl
  | cons c t ih =>
    rw [List.reverse_cons]
    apply noDouble_append_one _ _ (ih (noDouble_tail c t h))
    intro d hd hdc
    rw [List.getLast?_reverse] at hd
    cases t with
    | nil => cases hd
    | cons e s =>
      rw [List.head?_cons] at hd
      injection hd with hd
      simp only [noDouble, Bool.and_eq_true] at h
      have hpair : (c == '_' && e == '_') = false := by
        have h1 := h.1
        revert h1
        cases c == '_' && e == '_' <;> simp
      rw [hd, hdc.1, hdc.2] at hpair
      exact absurd hpair (by decide)

lemma noDouble_stripUnd (l : List Char) (h : noDouble l = true) :
    noDouble (stripUnd l) = true :=
  noDouble_reverse _ (noDouble_dropWhile _ _
    (noDouble_reverse _ (noDouble_dropWhile _ _ h)))

lemma head?_dropWhile_neg (p : Char → Bool) (l : List Char) (c : Char)
    (h : (l.dropWhile p).head? = some c) : p c = false := by
  induction l with
  | nil => cases h
  | cons a t ih =>
    rw [List.dropWhile_cons] at h
    by_cases hp : p a = true
    · rw [if_pos hp] at h
      exact ih h
    · rw [if_neg hp] at h
      rw [List.head?_cons] at h
      injection h with h
      subst h
      exact Bool.not_eq_true _ |>.mp hp

lemma getLast?_dropWhile_of_ne_nil (p : Char → Bool) (l : List Char)
    (hne : l.dropWhile p ≠ []) :
    (l.dropWhile p).getLast? = l.getLast? := by
  induction l with
  | nil => exact absurd rfl hne
  | cons a t ih =>
    rw [List.dropWhile_cons] at hne ⊢
    by_cases hp : p a = true
    · rw [if_pos hp] at hne ⊢
      rw [ih hne]
      have ht : t ≠ [] := by
        rintro rfl
        exact hne rfl
      cases t with
      | nil => exact absurd rfl ht
      | cons b r => rw [List.getLast?_cons_cons]
    · rw [if_neg hp]

lemma stripUnd_head_ne (l : List Char) :
    ∀ c, (stripUnd l).head? = some c → (c == '_') = false := by
  intro c h
  unfold stripUnd at h
  rw [List.head?_reverse] at h
  have hyne : (l.dropWhile (· == '_')).reverse.dropWhile (· == '_') ≠ [] := by
    intro h0
    rw [h0] at h
    cases h
  rw [getLast?_dropWhile_of_ne_nil _ _ hyne, List.getLast?_reverse] at h
  exact head?_dropWhile_neg (· == '_') l c h

lemma stripUnd_last_ne (l : List Char) :
    ∀ c, (stripUnd l).getLast? = some c → (c == '_') = false := by
  intro c h
  unfold stripUnd at h
  rw [List.getLast?_reverse] at h
  exact head?_dropWhile_neg (· == '_') _ c h

lemma mem_stripUnd (l : List Char) (c : Char) (h : c ∈ stripUnd l) :
    c ∈ l := by
  unfold stripUnd at h
  rw [List.mem_reverse] at h
  have h2 := (List.dropWhile_sublist _).mem h
  rw [List.mem_reverse] at h2
  exact (List.dropWhile_sublist _).mem h2

/-! ### The sanitizer's output invariants -/

/-- Every character of a sanitizer result is a lowercase letter, digit or
underscore. -/
lemma sanitizeList_lowerWord (cs : List Char) :
    ∀ c ∈ sanitizeList cs, isLowerWord c = true := by
  intro c hc
  unfold sanitizeList at hc
  have h1 := mem_stripUnd _ _ hc
  have h2 := mem_collapseUnd _ _ h1
  have h3 : c ∈ replaceNonWord ((jsTrimList cs).map jsToLower) ∨ c = '_' := by
    cases hm : replaceNonWord ((jsTrimList cs).map jsToLower) with
    | nil =>
      rw [hm] at h2
      rw [show prefixIfBadLead [] = ([] : List Char) from rfl] at h2
      cases h2
    | cons a t =>
      rw [hm] at h2
      rw [show prefixIfBadLead (a :: t) =
          if isLeadChar a = true then a :: t else '_' :: a :: t from rfl]
        at h2
      by_cases hl : isLeadChar a = true
      · rw [if_pos hl] at h2
        exact Or.inl h2
      · rw [if_neg hl] at h2
        rcases List.mem_cons.mp h2 with rfl | h4
        · exact Or.inr rfl
        · exact Or.inl h4
  rcases h3 with h3 | rfl
  · unfold replaceNonWord at h3
    rw [List.mem_map] at h3
    obtain ⟨d, hd, hdc⟩ := h3
    rw [List.mem_map] at hd
    obtain ⟨e, _, rfl⟩ := hd
    by_cases hw : isWordChar (jsToLower e) = true
    · rw [if_pos hw] at hdc
      subst hdc
      have hup := jsToLower_not_upper e
      rw [isLowerWord_iff]
      simp only [isWordChar, Bool.or_eq_true, Bool.and_eq_true,
        decide_eq_true_eq, beq_iff_eq] at hw
      omega
    · rw [if_neg hw] at hdc
      subst hdc
      decide
  · decide

/-- A sanitizer result has no adjacent underscores. -/
lemma sanitizeList_noDouble (cs : List Char) :
    noDouble (sanitizeList cs) = true :=
  noDouble_stripUnd _ (noDouble_collapseUnd _)

/-- A sanitizer result does not start with an underscore. -/
lemma sanitizeList_head_ne (cs : List Char) :
    ∀ c, (sanitizeList cs).head? = some c → (c == '_') = false :=
  stripUnd_head_ne _

/-- A sanitizer result does not end with an underscore. -/
lemma sanitizeList_last_ne (cs : List Char) :
    ∀ c, (sanitizeList cs).getLast? = some c → (c == '_') = false :=
  stripUnd_last_ne _

/-- Stripping fixes a list with underscore-free boundaries. -/
lemma stripUnd_eq_self (l : List Char)
    (hh : ∀ c, l.head? = some c → (c == '_') = false)
    (hl : ∀ c, l.getLast? = some c → (c == '_') = false) :
    stripUnd l = l := by
  unfold stripUnd
  rw [dropWhile_of_head_neg hh,
    dropWhile_of_head_neg (fun c hc => hl c (by rwa [List.head?_reverse]
      at hc)),
    List.reverse_reverse]

/-- The sanitizer chain fixes any list satisfying its own output
invariants — including one that starts with a digit, where the prefixed
protective underscore is immediately stripped again. -/
lemma sanitizeList_fixpoint (r : List Char)
    (hlow : ∀ c ∈ r, isLowerWord c = true)
    (hnd : noDouble r = true)
    (hh : ∀ c, r.head? = some c → (c == '_') = false)
    (hl : ∀ c, r.getLast? = some c → (c == '_') = false) :
    sanitizeList r = r := by
  unfold sanitizeList
  rw [jsTrimList_of_no_space r
      (fun c hc => lowerWord_not_space c (hlow c hc)),
    map_eq_self_of (fun c hc => jsToLower_lowerWord c (hlow c hc)),
    replaceNonWord_of_word r
      (fun c hc => lowerWord_isWordChar c (hlow c hc))]
  cases r with
  | nil => rfl
  | cons c t =>
    by_cases hlead : isLeadChar c = true
    · rw [show prefixIfBadLead (c :: t) =
          if isLeadChar c = true then c :: t else '_' :: c :: t from rfl,
        if_pos hlead]
      rw [collapseUnd_eq_self _ hnd]
      exact stripUnd_eq_self _ hh hl
    · rw [show prefixIfBadLead (c :: t) =
          if isLeadChar c = true then c :: t else '_' :: c :: t from rfl,
        if_neg hlead]
      have hcne : (c == '_') = false := hh c rfl
      have hcol : collapseUnd ('_' :: c :: t) = '_' :: c :: t := by
        rw [collapseUnd, if_neg (by simp [hcne]),
          collapseUnd_eq_self _ hnd]
      rw [hcol]
      unfold stripUnd
      rw [List.dropWhile_cons, if_pos (by decide),
        @dropWhile_of_head_neg (fun x => x == '_') (c :: t) (fun d hd => by
          rw [List.head?_cons] at hd
          injection hd with hd
          rw [hd] at hcne
          exact hcne),
        @dropWhile_of_head_neg (fun x => x == '_') (c :: t).reverse
          (fun d hd => hl d (by rwa [List.head?_reverse] at hd)),
        List.reverse_reverse]

/-- C9: the Identifier Sanitizer is idempotent: sanitizing a sanitized name
changes nothing (the fallback `unnamed_field` is itself a fixed point, and
every non-fallback output satisfies the invariants under which the chain is
the identity). -/
theorem c9_sanitize_idempotent (s : String) :
    sanitizeFieldName (sanitizeFieldName s) = sanitizeFieldName s := by
  cases hr : sanitizeList s.toList with
  | nil =>
    have h1 : sanitizeFieldName s = "unnamed_field" := by
      simp only [sanitizeFieldName]
      rw [if_pos hr]
    rw [h1]
    decide
  | cons c t =>
    have hne : sanitizeList s.toList ≠ [] := by
      rw [hr]
      exact List.cons_ne_nil _ _
    have h1 : sanitizeFieldName s = String.mk (sanitizeList s.toList) := by
      simp only [sanitizeFieldName]
      rw [if_neg hne]
    have htl : (String.mk (sanitizeList s.toList)).toList =
        sanitizeList s.toList := rfl
    have hfix : sanitizeList (String.mk (sanitizeList s.toList)).toList =
        sanitizeList s.toList := by
      rw [htl]
      exact sanitizeList_fixpoint _ (sanitizeList_lowerWord s.toList)
        (sanitizeList_noDouble s.toList) (sanitizeList_head_ne s.toList)
        (sanitizeList_last_ne s.toList)
    rw [h1]
    simp only [sanitizeFieldName]
    rw [if_neg (by rw [hfix]; exact hne), hfix]

end BQApp
